import Mathlib

/-!
Verification of the Alon Pardo law-office web server (`src/server.js`).

JavaScript strings are modelled as `List Char`; values of a parsed JSON
request body are modelled by `JSVal`.  The contact endpoint
(`app.post('/api/contact')`, lines 100-169) is modelled by `contactHandler`,
which returns either a runtime exception (`JsCrash`, a thrown `TypeError`
escaping the handler) or a structured response together with the list of
attempted outbound emails.  The SEO rendering pipeline (lines 250-313) is
modelled by `renderL` / `serveExpertise`.
-/

namespace AlonPardo

/-- A JSON value that can appear as one field of a parsed JSON request body.
Absent fields are `undefined`.  (Nested objects/arrays are not needed by any
claim and are omitted; JS numbers are modelled as integers, which covers
every integral literal a client can send.) -/
inductive JSVal where
  | undefined
  | null
  | bool (b : Bool)
  | num (n : Int)
  | str (s : List Char)
deriving DecidableEq

/-- A JavaScript runtime exception (`TypeError`) thrown inside the request
handler and not caught by it. -/
inductive JsCrash where
  | typeError
deriving DecidableEq

/-- JS whitespace set: the characters matched by `\s` in a JS regex, which is
also the set removed by `String.prototype.trim`. -/
def jsWsChars : List Char :=
  ['\t', '\n', '\x0b', '\x0c', '\r', ' ',
   '\u00a0', '\u1680', '\u2000', '\u2001', '\u2002', '\u2003',
   '\u2004', '\u2005', '\u2006', '\u2007', '\u2008', '\u2009',
   '\u200a', '\u2028', '\u2029', '\u202f', '\u205f', '\u3000', '\ufeff']

def isJsWs (c : Char) : Bool := jsWsChars.contains c

/-- `String.prototype.trim`: drop leading and trailing whitespace. -/
def trimL (l : List Char) : List Char :=
  ((l.dropWhile isJsWs).reverse.dropWhile isJsWs).reverse

/-- JS abstract `ToString` on the values of `JSVal` (used by `String(v)` and
by regex `.test(v)`). -/
def jsToString : JSVal → List Char
  | .undefined => "undefined".data
  | .null => "null".data
  | .bool true => "true".data
  | .bool false => "false".data
  | .num n => (toString n).data
  | .str s => s

/-- JS truthiness of a `JSVal`. -/
def jsTruthy : JSVal → Bool
  | .undefined => false
  | .null => false
  | .bool b => b
  | .num n => decide (n ≠ 0)
  | .str s => !s.isEmpty

/-- JS loose equality `v == null` (true exactly for `null` and `undefined`). -/
def jsLooseNull : JSVal → Bool
  | .undefined => true
  | .null => true
  | _ => false

/-- Calling `.trim()` on a `JSVal`: succeeds only on strings, otherwise the
engine throws `TypeError` (there is no such method on the other values). -/
def jsTrim : JSVal → Except JsCrash (List Char)
  | .str s => .ok (trimL s)
  | _ => .error .typeError

/-- `message ?? ''` (nullish coalescing, server.js line 138). -/
def nullishMsg : JSVal → JSVal
  | .undefined => .str []
  | .null => .str []
  | v => v

/-- `str.replace(/a/g, repl)` for a single-character pattern `a`:
replace every occurrence of `a` by `repl`. -/
def replaceCharL (a : Char) (r : List Char) : List Char → List Char
  | [] => []
  | c :: t => if c = a then r ++ replaceCharL a r t else c :: replaceCharL a r t

/-- The HTML-escape helper `esc` (server.js lines 13-19): four sequential
global replacements, ampersand first. -/
def escL (s : List Char) : List Char :=
  replaceCharL '"' ("&quot;".data)
    (replaceCharL '>' ("&gt;".data)
      (replaceCharL '<' ("&lt;".data)
        (replaceCharL '&' ("&amp;".data) s)))

/-- One character of the phone character class `[\d\s\-+().]`
(server.js line 120). -/
def isPhoneChar (c : Char) : Bool :=
  c.isDigit || isJsWs c || c = '-' || c = '+' || c = '(' || c = ')' || c = '.'

/-- `/^[\d\s\-+().]+$/.test(s)` (server.js line 120): the whole string is a
non-empty run of allowed characters. -/
def phoneTest (l : List Char) : Bool :=
  !l.isEmpty && l.all isPhoneChar

/-- Split a list at the first occurrence of `a`; `none` when `a` is absent. -/
def breakAt (a : Char) : List Char → Option (List Char × List Char)
  | [] => none
  | c :: rest =>
    if c = a then some ([], rest)
    else
      match breakAt a rest with
      | none => none
      | some (l, r) => some (c :: l, r)

/-- `/^[^\s@]+@[^\s@]+\.[^\s@]+$/.test(s)` (server.js line 125).  The regex
accepts exactly the strings of shape `A ++ "@" ++ B ++ "." ++ C` with `A`,
`B`, `C` non-empty and free of whitespace and `@`; equivalently: no
whitespace anywhere, exactly one `@`, a non-empty local part, and a `.` in
the domain that is neither its first nor its last character. -/
def emailTest (l : List Char) : Bool :=
  match breakAt '@' l with
  | none => false
  | some (loc, dom) =>
    !loc.isEmpty && !dom.isEmpty && !(dom.contains '@') &&
    !(l.any isJsWs) && ((dom.drop 1).dropLast.contains '.')

/-- The parsed JSON request body, destructured at server.js line 101. -/
structure ReqBody where
  name : JSVal
  phone : JSVal
  caseType : JSVal
  email : JSVal
  message : JSVal
  lang : JSVal
deriving DecidableEq

/-- Process environment relevant to the mailer: `SMTP_USER` and `SMTP_PASS`. -/
structure Env where
  smtpUser : Option (List Char)
  smtpPass : Option (List Char)
deriving DecidableEq

/-- `process.env.SMTP_PASS ? nodemailer.createTransport(...) : null`
(server.js lines 80-88), evaluated once at startup: the transporter exists
iff `SMTP_PASS` is set to a truthy (non-empty) string. -/
def transporterConfigured (env : Env) : Bool :=
  match env.smtpPass with
  | some p => !p.isEmpty
  | none => false

/-- `process.env.SMTP_USER || 'pardooren@gmail.com'` (server.js line 159). -/
def smtpUserResolved (env : Env) : List Char :=
  match env.smtpUser with
  | some u => if u.isEmpty then "pardooren@gmail.com".data else u
  | none => "pardooren@gmail.com".data

/-- The JSON body of a contact-endpoint response:
`{ok, error?, fields?}`. -/
structure JsonResp where
  ok : Bool
  error : Option (List Char)
  fields : Option (List (List Char))
deriving DecidableEq

/-- An outbound email handed to `transporter.sendMail`
(server.js lines 158-163). -/
structure OutMail where
  fromAddr : List Char
  toAddr : List Char
  subject : List Char
  html : List Char
deriving DecidableEq

/-- Outcome of one request to the contact endpoint: HTTP status, JSON body,
and the list of attempted `sendMail` calls. -/
structure HandlerOut where
  status : Nat
  body : JsonResp
  attempts : List OutMail
deriving DecidableEq

def missingResp (fs : List (List Char)) : JsonResp :=
  ⟨false, some ("Missing required fields".data), some fs⟩

/-- `` `${field} exceeds maximum length of ${max}` `` (server.js line 115). -/
def tooLongResp (f : List Char) (m : Nat) : JsonResp :=
  ⟨false, some (f ++ (" exceeds maximum length of ".data) ++ (toString m).data), none⟩

def invalidPhoneResp : JsonResp := ⟨false, some ("Invalid phone format".data), none⟩

def invalidEmailResp : JsonResp := ⟨false, some ("Invalid email format".data), none⟩

def notConfiguredResp : JsonResp := ⟨false, some ("Email not configured".data), none⟩

def okResp : JsonResp := ⟨true, none, none⟩

def sendFailResp : JsonResp := ⟨false, some ("Failed to send email".data), none⟩

/-- The required-field predicate of server.js line 105:
`v == null || String(v).trim() === ''`. -/
def fieldMissing (v : JSVal) : Bool :=
  jsLooseNull v || (trimL (jsToString v)).isEmpty

/-- `Object.entries({name, phone, caseType})` (server.js line 103). -/
def requiredEntries (b : ReqBody) : List (List Char × JSVal) :=
  [("name".data, b.name), ("phone".data, b.phone), ("caseType".data, b.caseType)]

/-- server.js lines 104-106: the names of the required fields that are
missing, in declaration order. -/
def missingFields (b : ReqBody) : List (List Char) :=
  ((requiredEntries b).filter (fun kv => fieldMissing kv.2)).map (fun kv => kv.1)

/-- `req.body[field]` for the five limited field names. -/
def getField (b : ReqBody) (f : List Char) : JSVal :=
  if f = ("name".data) then b.name
  else if f = ("phone".data) then b.phone
  else if f = ("caseType".data) then b.caseType
  else if f = ("email".data) then b.email
  else if f = ("message".data) then b.message
  else .undefined

/-- `Object.entries(limits)` (server.js line 112), in declaration order. -/
def limitsList : List (List Char × Nat) :=
  [("name".data, 200), ("phone".data, 30), ("caseType".data, 100),
   ("email".data, 254), ("message".data, 5000)]

/-- The length-stage loop (server.js lines 113-117): the first field whose
value is truthy and whose string form exceeds its limit, if any. -/
def firstTooLong (b : ReqBody) : Option (List Char × Nat) :=
  limitsList.find? (fun fm =>
    jsTruthy (getField b fm.1) && decide ((jsToString (getField b fm.1)).length > fm.2))

/-- The email-format stage (server.js lines 125-127):
`if (email && !re.test(email.trim())) return 400`.  Result: a crash when a
truthy non-string receives `.trim()`, otherwise whether the stage passes. -/
def emailStage (v : JSVal) : Except JsCrash Bool :=
  if jsTruthy v then
    match jsTrim v with
    | .error e => .error e
    | .ok t => .ok (emailTest t)
  else .ok true

/-- `email ? esc(email.trim()) : ''` (server.js line 137). -/
def safeEmailOf (v : JSVal) : Except JsCrash (List Char) :=
  if jsTruthy v then
    match jsTrim v with
    | .error e => .error e
    | .ok t => .ok (escL t)
  else .ok []

/-- `isHe = lang === 'he'` (server.js line 140): strict equality, so only the
exact string `"he"` selects the Hebrew email variant. -/
def jsIsHe (v : JSVal) : Bool := decide (v = .str ("he".data))

/-- The localized subject (server.js lines 141-143). -/
def subjectOf (isHe : Bool) (safeName safeCaseType : List Char) : List Char :=
  if isHe then
    ("פנייה חדשה: ".data) ++ safeName ++ (" – ".data) ++ safeCaseType
  else
    ("New Contact: ".data) ++ safeName ++ (" – ".data) ++ safeCaseType

/-- The email HTML template literal (server.js lines 145-155), with the five
already-sanitized values spliced in.  The email row is present only when
`safeEmail` is non-empty (`${safeEmail ? ... : ''}`). -/
def emailHtml (isHe : Bool) (sn sp sc se sm : List Char) : List Char :=
  ("\n        <div dir=\"".data) ++
  ((if isHe then "rtl" else "ltr").data) ++
  ("\" style=\"font-family:sans-serif;max-width:600px;margin:0 auto\">\n            <h2 style=\"color:#835e21\">".data) ++
  ((if isHe then "פנייה חדשה מאתר אלון פרדו" else "New contact from Alon Pardo website").data) ++
  ("</h2>\n            <table style=\"width:100%;border-collapse:collapse\">\n                <tr><td style=\"padding:8px;font-weight:bold;border-bottom:1px solid #eee;width:30%\">".data) ++
  ((if isHe then "שם" else "Name").data) ++
  ("</td><td style=\"padding:8px;border-bottom:1px solid #eee\">".data) ++ sn ++
  ("</td></tr>\n                <tr><td style=\"padding:8px;font-weight:bold;border-bottom:1px solid #eee\">".data) ++
  ((if isHe then "טלפון" else "Phone").data) ++
  ("</td><td style=\"padding:8px;border-bottom:1px solid #eee\">".data) ++ sp ++
  ("</td></tr>\n                <tr><td style=\"padding:8px;font-weight:bold;border-bottom:1px solid #eee\">".data) ++
  ((if isHe then "סוג התיק" else "Case Type").data) ++
  ("</td><td style=\"padding:8px;border-bottom:1px solid #eee\">".data) ++ sc ++
  ("</td></tr>\n                ".data) ++
  (if se.isEmpty then [] else
    ("<tr><td style=\"padding:8px;font-weight:bold;border-bottom:1px solid #eee\">".data) ++
    ((if isHe then "אימייל" else "Email").data) ++
    ("</td><td style=\"padding:8px;border-bottom:1px solid #eee\">".data) ++ se ++
    ("</td></tr>".data)) ++
  ("\n                <tr><td style=\"padding:8px;font-weight:bold;border-bottom:1px solid #eee;vertical-align:top\">".data) ++
  ((if isHe then "פרטים" else "Message").data) ++
  ("</td><td style=\"padding:8px;border-bottom:1px solid #eee\">".data) ++ sm ++
  ("</td></tr>\n            </table>\n        </div>".data)

/-- The outbound email assembled from the raw trimmed field values
(server.js lines 134-163): every field is escaped with `esc`, and the
message additionally has `\n` replaced by `<br>` after escaping. -/
def mkMail (fromUser : List Char) (isHe : Bool) (n p c se mg : List Char) : OutMail :=
  ⟨("\"Alon Pardo Website\" <".data) ++ fromUser ++ (">".data),
   "pardooren@gmail.com".data,
   subjectOf isHe (escL n) (escL c),
   emailHtml isHe (escL n) (escL p) (escL c) se
     (replaceCharL '\n' ("<br>".data) (escL mg))⟩

/-- server.js lines 134-168: sanitization of the validated submission and the
single `sendMail` attempt.  `.trim()` on a non-string field value throws. -/
def dispatchMail (fromUser : List Char) (sendOk : Bool) (b : ReqBody) :
    Except JsCrash HandlerOut :=
  match jsTrim b.name with
  | .error e => .error e
  | .ok n =>
    match jsTrim b.phone with
    | .error e => .error e
    | .ok p =>
      match jsTrim b.caseType with
      | .error e => .error e
      | .ok c =>
        match safeEmailOf b.email with
        | .error e => .error e
        | .ok se =>
          match jsTrim (nullishMsg b.message) with
          | .error e => .error e
          | .ok mg =>
            if sendOk then
              .ok ⟨200, okResp, [mkMail fromUser (jsIsHe b.lang) n p c se mg]⟩
            else
              .ok ⟨500, sendFailResp, [mkMail fromUser (jsIsHe b.lang) n p c se mg]⟩

/-- The contact-endpoint handler body (server.js lines 100-169), with the
startup-computed transporter flag and the resolved `SMTP_USER` as inputs and
the transport outcome of the single `sendMail` call as `sendOk`. -/
def contactCore (transporter : Bool) (fromUser : List Char) (sendOk : Bool)
    (b : ReqBody) : Except JsCrash HandlerOut :=
  if (missingFields b).isEmpty then
    match firstTooLong b with
    | some fm => .ok ⟨400, tooLongResp fm.1 fm.2, []⟩
    | none =>
      if phoneTest (jsToString b.phone) then
        match emailStage b.email with
        | .error e => .error e
        | .ok emailOk =>
          if emailOk then
            if transporter then dispatchMail fromUser sendOk b
            else .ok ⟨503, notConfiguredResp, []⟩
          else .ok ⟨400, invalidEmailResp, []⟩
      else .ok ⟨400, invalidPhoneResp, []⟩
  else .ok ⟨400, missingResp (missingFields b), []⟩

/-- The contact endpoint: the transporter flag was computed once at startup
(server.js line 80); the per-request environment is consulted only for
`SMTP_USER` inside the `sendMail` call (line 159). -/
def contactHandler (transporter : Bool) (env : Env) (sendOk : Bool)
    (b : ReqBody) : Except JsCrash HandlerOut :=
  contactCore transporter (smtpUserResolved env) sendOk b

/-- The two page languages (server.js line 254 forces the value to one of
`'he'` / `'en'`). -/
inductive Lang where
  | he
  | en
deriving DecidableEq

/-- One `{title, desc}` metadata record. -/
structure Meta where
  title : List Char
  desc : List Char
deriving DecidableEq

/-- One route's entry in `routeMeta`: the `he` and `en` records, each
possibly absent (a JS property access may yield `undefined`). -/
structure Entry where
  he : Option Meta
  en : Option Meta
deriving DecidableEq

/-- `entry[lang]` for `lang` one of `'he'` / `'en'`. -/
def langGet (e : Entry) : Lang → Option Meta
  | .he => e.he
  | .en => e.en

def mkEntry (ht hd et ed : String) : Entry :=
  ⟨some ⟨ht.data, hd.data⟩, some ⟨et.data, ed.data⟩⟩

/-- The static SEO metadata object `routeMeta` (server.js lines 172-213),
keyed by route path. -/
def routeMeta (r : List Char) : Option Entry :=
  if r = ("/practice/criminal-lawyer".data) then some (mkEntry
    "עורך דין פלילי | אלון פרדו"
    "עורך דין פלילי - ייצוג בחקירות משטרה, כתבי אישום, דיוני מעצר וערעורים. ייעוץ משפטי ישיר ומקצועי."
    "Criminal Defense Lawyer | Alon Pardo"
    "Criminal defense lawyer - representation in police investigations, indictments, detention hearings and appeals.")
  else if r = ("/practice/traffic-lawyer".data) then some (mkEntry
    "עורך דין תעבורה | אלון פרדו"
    "עורך דין תעבורה - ייצוג בעבירות תנועה, פסילת רישיון, נהיגה בשכרות ותאונות דרכים."
    "Traffic Law Lawyer | Alon Pardo"
    "Traffic law lawyer - representation for traffic offenses, license suspension, DUI and road accidents.")
  else if r = ("/practice/administrative-lawyer".data) then some (mkEntry
    "עורך דין מנהלי | אלון פרדו"
    "עורך דין מנהלי - ערעורים על החלטות רשויות, היתרים, רישוי וסכסוכים מוניציפליים."
    "Administrative Law Lawyer | Alon Pardo"
    "Administrative law lawyer - appeals against authority decisions, permits, licensing and municipal disputes.")
  else if r = ("/practice/employment-lawyer".data) then some (mkEntry
    "עורך דין דיני עבודה | אלון פרדו"
    "עורך דין דיני עבודה - ייצוג עובדים ומעסיקים בפיטורין, שימועים, תביעות שכר וסכסוכי עבודה."
    "Employment Law Lawyer | Alon Pardo"
    "Employment law lawyer - representing employees and employers in termination, hearings, wage claims and disputes.")
  else if r = ("/practice/accessibility-lawyer".data) then some (mkEntry
    "עורך דין נגישות | אלון פרדו"
    "עורך דין נגישות - ייעוץ, ציות ותביעות נגישות לעסקים ויחידים. הנחיה מעשית ותיקון."
    "Accessibility Law Lawyer | Alon Pardo"
    "Accessibility law lawyer - compliance, claims and enforcement for businesses and individuals.")
  else if r = ("/privacy".data) then some (mkEntry
    "מדיניות פרטיות | אלון פרדו"
    "מדיניות הפרטיות של אתר עו\"ד אלון פרדו - איסוף מידע, שמירה, אבטחה וזכויותיך."
    "Privacy Policy | Alon Pardo"
    "Privacy policy for Alon Pardo Attorney at Law - data collection, retention, security and your rights.")
  else if r = ("/terms".data) then some (mkEntry
    "תנאי שירות | אלון פרדו"
    "תנאי השירות של אתר עו\"ד אלון פרדו - שימוש באתר, הגבלות ודין חל."
    "Terms of Service | Alon Pardo"
    "Terms of service for Alon Pardo Attorney at Law website.")
  else if r = ("/cookies".data) then some (mkEntry
    "מדיניות עוגיות | אלון פרדו"
    "מדיניות העוגיות של אתר עו\"ד אלון פרדו - סוגי עוגיות, שימוש והגדרות."
    "Cookie Policy | Alon Pardo"
    "Cookie policy for Alon Pardo Attorney at Law website.")
  else if r = ("/disclaimer".data) then some (mkEntry
    "הצהרה משפטית | אלון פרדו"
    "הצהרה משפטית של אתר עו\"ד אלון פרדו - הגבלות, אחריות ודין חל."
    "Legal Disclaimer | Alon Pardo"
    "Legal disclaimer for Alon Pardo Attorney at Law website.")
  else if r = ("/accessibility-statement".data) then some (mkEntry
    "הצהרת נגישות | אלון פרדו"
    "הצהרת הנגישות של אתר עו\"ד אלון פרדו - תקן WCAG 2.2 AA, תכונות נגישות ויצירת קשר."
    "Accessibility Statement | Alon Pardo"
    "Accessibility statement - WCAG 2.2 AA standard, accessibility features and contact information.")
  else none

/-- The statically registered route list `expertiseRoutes`
(server.js lines 237-248). -/
def expertiseRoutes : List (List Char) :=
  ["/practice/criminal-lawyer".data,
   "/practice/traffic-lawyer".data,
   "/practice/administrative-lawyer".data,
   "/practice/employment-lawyer".data,
   "/practice/accessibility-lawyer".data,
   "/privacy".data,
   "/terms".data,
   "/cookies".data,
   "/disclaimer".data,
   "/accessibility-statement".data]

/-- `routeMeta[route]?.[lang] || routeMeta[route]?.he` (server.js line 255),
over an arbitrary metadata table. -/
def resolveMetaT (tbl : List Char → Option Entry) (r : List Char) (l : Lang) :
    Option Meta :=
  match (tbl r).bind (fun e => langGet e l) with
  | some m => some m
  | none => (tbl r).bind (fun e => e.he)

/-- The metadata actually used to render `r` at language `l`. -/
def resolveMeta (r : List Char) (l : Lang) : Option Meta :=
  resolveMetaT routeMeta r l

/-- `req.query.lang === 'en' ? 'en' : 'he'` (server.js line 254): the query
parameter is a string or absent; only the exact string `"en"` selects
English. -/
def pageLang (q : Option (List Char)) : Lang :=
  if q = some ("en".data) then .en else .he

/-- `canonical = lang === 'en' ? route + '?lang=en' : route`
(server.js line 256). -/
def canonicalOf (r : List Char) : Lang → List Char
  | .en => r ++ ("?lang=en".data)
  | .he => r

/-- The canonical link element injected at server.js lines 271-272. -/
def canonicalTag (c : List Char) : List Char :=
  ("<link rel=\"canonical\" id=\"canonical-link\" href=\"".data) ++ c ++ ("\">".data)

/-- The three regex/string pattern shapes used by the `.replace` calls of the
expertise handler: a plain string (JS `replace` with a string replaces the
first occurrence), an attribute-tag regex `lit[^>]*>`, and the title regex
`<title[^>]*>[^<]*</title>`. -/
inductive Pat where
  | lit (p : List Char)
  | attrTag (p : List Char)
  | titleTag
deriving DecidableEq

/-- Length of the (unique, leftmost-greedy) match of `pat` at the START of
`s`, when there is one.  For `attrTag p` the regex `p[^>]*>` matches from an
occurrence of `p` up to the first following `>`; for `titleTag` the regex
`<title[^>]*>[^<]*</title>` additionally requires the literal `</title>`
right after the first `<` that follows the tag-closing `>`. -/
def matchLen (pat : Pat) (s : List Char) : Option Nat :=
  match pat with
  | .lit p => if p.isPrefixOf s ∧ ¬ p.isEmpty then some p.length else none
  | .attrTag p =>
    if p.isPrefixOf s ∧ ¬ p.isEmpty then
      let rest := s.drop p.length
      let run := rest.takeWhile (fun c => c ≠ '>')
      if run.length < rest.length then some (p.length + run.length + 1) else none
    else none
  | .titleTag =>
    if ("<title".data).isPrefixOf s then
      let rest := s.drop 6
      let run := rest.takeWhile (fun c => c ≠ '>')
      if run.length < rest.length then
        let rest2 := rest.drop (run.length + 1)
        let run2 := rest2.takeWhile (fun c => c ≠ '<')
        if ("</title>".data).isPrefixOf (rest2.drop run2.length) then
          some (6 + run.length + 1 + run2.length + 8)
        else none
      else none
    else none

/-- Replace the leftmost match of `pat` in the input by `repl`; the input is
returned unchanged when there is no match (JS `String.prototype.replace`
with a non-global pattern). -/
def replaceFirstGo (pat : Pat) (repl : List Char) : List Char → List Char
  | [] => []
  | c :: rest =>
    match matchLen pat (c :: rest) with
    | some n => repl ++ (c :: rest).drop n
    | none => c :: replaceFirstGo pat repl rest

def replaceFirst (pat : Pat) (repl s : List Char) : List Char :=
  replaceFirstGo pat repl s

/-- `String.prototype.includes` on character lists. -/
def containsSub (pat : List Char) : List Char → Bool
  | [] => pat.isEmpty
  | c :: rest => pat.isPrefixOf (c :: rest) || containsSub pat rest

def hexDig (n : Nat) : Char :=
  if n < 10 then Char.ofNat (48 + n) else Char.ofNat (87 + n)

/-- The escaping `JSON.stringify` applies inside a string value. -/
def jsonEscChar (c : Char) : List Char :=
  if c = '"' then ['\\', '"']
  else if c = '\\' then ['\\', '\\']
  else if c = '\n' then ['\\', 'n']
  else if c = '\r' then ['\\', 'r']
  else if c = '\t' then ['\\', 't']
  else if c = '\x08' then ['\\', 'b']
  else if c = '\x0c' then ['\\', 'f']
  else if c.toNat < 32 then
    ['\\', 'u', '0', '0', hexDig (c.toNat / 16), hexDig (c.toNat % 16)]
  else [c]

def flatMapL (f : Char → List Char) : List Char → List Char
  | [] => []
  | c :: t => f c ++ flatMapL f t

/-- `JSON.stringify` of a string value. -/
def jsonStr (s : List Char) : List Char :=
  '"' :: flatMapL jsonEscChar s ++ ['"']

/-- `meta.title.split('|')[0].trim()` (server.js lines 288, 305). -/
def titleHead (t : List Char) : List Char :=
  trimL (t.takeWhile (fun c => c ≠ '|'))

/-- The `LegalService` JSON-LD record (server.js lines 285-299), exactly as
`JSON.stringify` serializes it (insertion-ordered keys, no spacing). -/
def legalServiceJson (m : Meta) (canonical : List Char) : List Char :=
  ("\x7b\"@context\":\"https://schema.org\",\"@type\":\"LegalService\",\"name\":".data) ++
  jsonStr (titleHead m.title) ++
  (",\"description\":".data) ++ jsonStr m.desc ++
  (",\"url\":".data) ++ jsonStr canonical ++
  (",\"provider\":\x7b\"@type\":\"Person\",\"name\":\"Alon Pardo\",\"jobTitle\":\"Attorney at Law\",\"telephone\":\"+972524203401\"\x7d,\"areaServed\":\x7b\"@type\":\"Country\",\"name\":\"Israel\"\x7d,\"availableLanguage\":[\"Hebrew\",\"English\"]\x7d".data)

/-- The `BreadcrumbList` JSON-LD record (server.js lines 300-307). -/
def breadcrumbJson (m : Meta) (canonical : List Char) (l : Lang) : List Char :=
  ("\x7b\"@context\":\"https://schema.org\",\"@type\":\"BreadcrumbList\",\"itemListElement\":[\x7b\"@type\":\"ListItem\",\"position\":1,\"name\":".data) ++
  jsonStr ((match l with | .en => "Home" | .he => "דף הבית").data) ++
  (",\"item\":\"/\"\x7d,\x7b\"@type\":\"ListItem\",\"position\":2,\"name\":".data) ++
  jsonStr (titleHead m.title) ++
  (",\"item\":".data) ++ jsonStr canonical ++ ("\x7d]\x7d".data)

/-- The fixed social-preview image URL (server.js line 220). -/
def ogImageUrl : List Char :=
  "https://images.unsplash.com/photo-1505664194779-8beaceb93744?auto=format&fit=crop&q=80&w=1200".data

/-- The og:image block spliced in at the Twitter-card anchor comment
(server.js line 280). -/
def ogImageBlock : List Char :=
  ("<meta property=\"og:image\" content=\"".data) ++ ogImageUrl ++
  ("\">\n    <meta property=\"og:image:width\" content=\"1200\">\n    <meta property=\"og:image:height\" content=\"630\">\n\n    <!-- Twitter Card -->".data)

/-- The hreflang alternate-link block (server.js line 275). -/
def hreflangBlock (route : List Char) : List Char :=
  ("<link rel=\"alternate\" hreflang=\"he\" href=\"".data) ++ route ++
  ("\">\n    <link rel=\"alternate\" hreflang=\"en\" href=\"".data) ++ route ++
  ("?lang=en\">\n    <link rel=\"alternate\" hreflang=\"x-default\" href=\"".data) ++ route ++
  ("\">".data)

/-- The JSON-LD replacement for `</head>` (server.js lines 308-309). -/
def jsonLdBlock (m : Meta) (canonical : List Char) (l : Lang) : List Char :=
  ("    <script type=\"application/ld+json\">".data) ++ legalServiceJson m canonical ++
  ("</script>\n    <script type=\"application/ld+json\">".data) ++ breadcrumbJson m canonical l ++
  ("</script>\n</head>".data)

/-- The expertise-route handler body (server.js lines 251-312) at an already
resolved language: metadata lookup, seven first-match substitutions, hreflang
injection, conditional og:image injection, and JSON-LD injection for
`/practice/` routes.  Accessing `.title` of an `undefined` metadata entry
throws. -/
def renderL (template route : List Char) (lang : Lang) : Except JsCrash (List Char) :=
  match resolveMeta route lang with
  | none => .error .typeError
  | some meta =>
    let canonical := canonicalOf route lang
    let h1 := replaceFirst Pat.titleTag
      (("<title id=\"page-title\">".data) ++ meta.title ++ ("</title>".data)) template
    let h2 := replaceFirst (Pat.attrTag ("<meta name=\"description\"".data))
      (("<meta name=\"description\" id=\"meta-description\" content=\"".data) ++ meta.desc ++ ("\">".data)) h1
    let h3 := replaceFirst (Pat.attrTag ("<meta property=\"og:title\"".data))
      (("<meta property=\"og:title\" id=\"og-title\" content=\"".data) ++ meta.title ++ ("\">".data)) h2
    let h4 := replaceFirst (Pat.attrTag ("<meta property=\"og:description\"".data))
      (("<meta property=\"og:description\" id=\"og-description\" content=\"".data) ++ meta.desc ++ ("\">".data)) h3
    let h5 := replaceFirst (Pat.attrTag ("<meta name=\"twitter:title\"".data))
      (("<meta name=\"twitter:title\" id=\"twitter-title\" content=\"".data) ++ meta.title ++ ("\">".data)) h4
    let h6 := replaceFirst (Pat.attrTag ("<meta name=\"twitter:description\"".data))
      (("<meta name=\"twitter:description\" id=\"twitter-description\" content=\"".data) ++ meta.desc ++ ("\">".data)) h5
    let h7 := replaceFirst (Pat.attrTag ("<link rel=\"canonical\"".data))
      (canonicalTag canonical) h6
    let h8 := replaceFirst (Pat.lit ("<!-- Canonical & hreflang -->".data))
      (("<!-- Canonical & hreflang -->\n    ".data) ++ hreflangBlock route) h7
    let h9 := if containsSub ("og:image".data) h8 then h8
      else replaceFirst (Pat.lit ("<!-- Twitter Card -->".data)) ogImageBlock h8
    let h10 := if ("/practice/".data).isPrefixOf route then
        replaceFirst (Pat.lit ("</head>".data)) (jsonLdBlock meta canonical lang) h9
      else h9
    .ok h10

/-- The expertise-route handler as registered: the language is derived from
the query parameter per server.js line 254. -/
def renderExpertise (template route : List Char) (q : Option (List Char)) :
    Except JsCrash (List Char) :=
  renderL template route (pageLang q)

/-- The mutable server state a render could in principle touch: the HTML
template cached at startup (server.js line 217).  The handler only reads it. -/
structure ServerState where
  expertiseTemplate : List Char
deriving DecidableEq

/-- Serving one request to a registered route: produces the response and the
server state left behind (server.js lines 250-313 never reassign the cached
template; every render starts from the pristine cached string). -/
def serveExpertise (st : ServerState) (route : List Char) (q : Option (List Char)) :
    Except JsCrash (List Char) × ServerState :=
  (renderExpertise st.expertiseTemplate route q, st)

/-- Modelled from the spec: `public/expertise.html` is not under `src/`; per
spec section 4.1 and section 9 the template contains exactly one title
element, one description meta tag, one og:title/og:description pair, one
twitter:title/twitter:description pair, one canonical link, the anchor
comments, and no og:image reference. -/
def specTemplate : List Char :=
  ("<!DOCTYPE html>\n<html lang=\"he\">\n<head>\n    <meta charset=\"UTF-8\">\n    <title>Alon Pardo</title>\n    <meta name=\"description\" content=\"placeholder\">\n    <!-- Canonical & hreflang -->\n    <link rel=\"canonical\" href=\"/\">\n    <meta property=\"og:title\" content=\"placeholder\">\n    <meta property=\"og:description\" content=\"placeholder\">\n\n    <!-- Twitter Card -->\n    <meta name=\"twitter:title\" content=\"placeholder\">\n    <meta name=\"twitter:description\" content=\"placeholder\">\n</head>\n<body></body>\n</html>").data

/-- Whether rendering `r` at language `l` from the modelled template yields a
document containing the canonical link tag for exactly `canonicalOf r l`. -/
def renderedHasCanonical (r : List Char) (l : Lang) : Bool :=
  match renderL specTemplate r l with
  | .ok h => containsSub (canonicalTag (canonicalOf r l)) h
  | .error _ => false


/-- The message value after newline conversion is "escaped text interleaved
with literal `<br>` tags": every `<` or `>` present belongs to an inserted
`<br>`, never to the underlying text. -/
inductive BrSafe : List Char → Prop where
  | nil : BrSafe []
  | br (t : List Char) : BrSafe t → BrSafe ('<' :: 'b' :: 'r' :: '>' :: t)
  | ch (c : Char) (t : List Char) : c ≠ '<' → c ≠ '>' → BrSafe t → BrSafe (c :: t)

/-- A sample environment: `SMTP_USER` unset, `SMTP_PASS` set. -/
def envA : Env := ⟨none, some ("pw".data)⟩

/-- A minimal body passing all four validation stages. -/
def bodyValid : ReqBody :=
  ⟨.str ("a".data), .str ("1".data), .str ("x".data), .undefined, .undefined, .undefined⟩

/-- The spec's own example body: empty `name`, valid `phone` and `caseType`. -/
def bodyEmptyName : ReqBody :=
  ⟨.str [], .str ("123".data), .str ("x".data), .undefined, .undefined, .undefined⟩

/-- A body whose `name` is 300 characters long. -/
def bodyLongName : ReqBody :=
  ⟨.str (List.replicate 300 'a'), .str ("1".data), .str ("x".data), .undefined, .undefined, .undefined⟩

/-- A body whose `email` field is the JSON number `123`: truthy, short
enough for the length stage, but without a `.trim` method. -/
def bodyNumericEmail : ReqBody :=
  ⟨.str ("a".data), .str ("1".data), .str ("x".data), .num 123, .undefined, .undefined⟩

/-- The single outbound mail produced by `bodyValid` with a configured
transporter (field values left in unevaluated form). -/
def mailSmall : OutMail :=
  mkMail (smtpUserResolved envA) (jsIsHe bodyValid.lang)
    (trimL ("a".data)) (trimL ("1".data)) (trimL ("x".data)) [] (trimL [])

def outSmall : HandlerOut := ⟨200, okResp, [mailSmall]⟩

def stA : ServerState := ⟨specTemplate⟩

def privacyEntry : Entry := (routeMeta ("/privacy".data)).getD ⟨none, none⟩

theorem mem_replaceCharL (a : Char) (r s : List Char) (c : Char)
    (h : c ∈ replaceCharL a r s) : c ∈ r ∨ (c ∈ s ∧ c ≠ a) := by
  induction s with
  | nil => simp [replaceCharL] at h
  | cons d t ih =>
    by_cases hd : d = a
    · rw [replaceCharL, if_pos hd] at h
      rcases List.mem_append.mp h with h1 | h2
      · exact Or.inl h1
      · rcases ih h2 with h3 | ⟨h4, h5⟩
        exacts [Or.inl h3, Or.inr ⟨List.mem_cons_of_mem _ h4, h5⟩]
    · rw [replaceCharL, if_neg hd] at h
      rcases List.mem_cons.mp h with rfl | h2
      · exact Or.inr ⟨List.mem_cons_self _ _, hd⟩
      · rcases ih h2 with h3 | ⟨h4, h5⟩
        exacts [Or.inl h3, Or.inr ⟨List.mem_cons_of_mem _ h4, h5⟩]

theorem escL_no_angle (s : List Char) : ('<' ∉ escL s) ∧ ('>' ∉ escL s) := by
  constructor
  · intro h
    unfold escL at h
    rcases mem_replaceCharL _ _ _ _ h with h | ⟨h, _⟩
    · exact absurd h (by decide)
    rcases mem_replaceCharL _ _ _ _ h with h | ⟨h, _⟩
    · exact absurd h (by decide)
    rcases mem_replaceCharL _ _ _ _ h with h | ⟨h, hne⟩
    · exact absurd h (by decide)
    · exact hne rfl
  · intro h
    unfold escL at h
    rcases mem_replaceCharL _ _ _ _ h with h | ⟨h, _⟩
    · exact absurd h (by decide)
    rcases mem_replaceCharL _ _ _ _ h with h | ⟨h, hne⟩
    · exact absurd h (by decide)
    · exact hne rfl

theorem brSafe_replaceNl (t : List Char) (ht : ∀ c ∈ t, c ≠ '<' ∧ c ≠ '>') :
    BrSafe (replaceCharL '\n' ("<br>".data) t) := by
  induction t with
  | nil => exact BrSafe.nil
  | cons d t ih =>
    by_cases hd : d = '\n'
    · subst hd
      rw [show replaceCharL '\n' ("<br>".data) ('\n' :: t) =
            '<' :: 'b' :: 'r' :: '>' :: replaceCharL '\n' ("<br>".data) t from by
          simp [replaceCharL]]
      exact BrSafe.br _ (ih (fun c hc => ht c (List.mem_cons_of_mem _ hc)))
    · rw [show replaceCharL '\n' ("<br>".data) (d :: t) =
            d :: replaceCharL '\n' ("<br>".data) t from by simp [replaceCharL, hd]]
      have hdd := ht d (List.mem_cons_self _ _)
      exact BrSafe.ch d _ hdd.1 hdd.2 (ih (fun c hc => ht c (List.mem_cons_of_mem _ hc)))

theorem safeEmailOf_shape (v : JSVal) (se : List Char)
    (h : safeEmailOf v = .ok se) : se = [] ∨ ∃ e0, se = escL e0 := by
  unfold safeEmailOf at h
  by_cases ht : jsTruthy v
  · rw [if_pos ht] at h
    cases hj : jsTrim v with
    | error e => rw [hj] at h; simp at h
    | ok t0 => rw [hj] at h; simp at h; exact Or.inr ⟨t0, h.symm⟩
  · rw [if_neg ht] at h
    simp at h
    exact Or.inl h

theorem dispatchMail_ok (fu : List Char) (sOk : Bool) (b : ReqBody) (out : HandlerOut)
    (h : dispatchMail fu sOk b = .ok out) :
    ∃ n p c se mg, jsTrim b.name = .ok n ∧ jsTrim b.phone = .ok p ∧
      jsTrim b.caseType = .ok c ∧ safeEmailOf b.email = .ok se ∧
      jsTrim (nullishMsg b.message) = .ok mg ∧
      out = ⟨(if sOk then 200 else 500), (if sOk then okResp else sendFailResp),
             [mkMail fu (jsIsHe b.lang) n p c se mg]⟩ := by
  unfold dispatchMail at h
  cases hn : jsTrim b.name with
  | error e => rw [hn] at h; simp at h
  | ok n =>
  rw [hn] at h
  cases hp : jsTrim b.phone with
  | error e => rw [hp] at h; simp at h
  | ok p =>
  rw [hp] at h
  cases hc : jsTrim b.caseType with
  | error e => rw [hc] at h; simp at h
  | ok c =>
  rw [hc] at h
  cases hse : safeEmailOf b.email with
  | error e => rw [hse] at h; simp at h
  | ok se =>
  rw [hse] at h
  cases hmg : jsTrim (nullishMsg b.message) with
  | error e => rw [hmg] at h; simp at h
  | ok mg =>
  rw [hmg] at h
  cases sOk
  · have h5 : (⟨500, sendFailResp, [mkMail fu (jsIsHe b.lang) n p c se mg]⟩ : HandlerOut) = out := by
      simpa using h
    exact ⟨n, p, c, se, mg, rfl, rfl, rfl, rfl, rfl, by rw [← h5]; rfl⟩
  · have h2 : (⟨200, okResp, [mkMail fu (jsIsHe b.lang) n p c se mg]⟩ : HandlerOut) = out := by
      simpa using h
    exact ⟨n, p, c, se, mg, rfl, rfl, rfl, rfl, rfl, by rw [← h2]; rfl⟩

theorem contactCore_ok_inv (t : Bool) (fu : List Char) (sOk : Bool) (b : ReqBody)
    (out : HandlerOut) (h : contactCore t fu sOk b = .ok out) :
    out.attempts = [] ∨
    ((missingFields b).isEmpty = true ∧ firstTooLong b = none ∧
     phoneTest (jsToString b.phone) = true ∧ emailStage b.email = .ok true ∧
     t = true ∧ dispatchMail fu sOk b = .ok out) := by
  unfold contactCore at h
  by_cases hms : (missingFields b).isEmpty
  · rw [if_pos hms] at h
    cases hft : firstTooLong b with
    | some fm =>
      rw [hft] at h
      have he : (⟨400, tooLongResp fm.1 fm.2, []⟩ : HandlerOut) = out := by simpa using h
      exact Or.inl (by rw [← he])
    | none =>
      rw [hft] at h
      by_cases hpt : phoneTest (jsToString b.phone)
      · rw [if_pos hpt] at h
        cases hes : emailStage b.email with
        | error e => rw [hes] at h; simp at h
        | ok eok =>
          rw [hes] at h
          cases eok
          · have he : (⟨400, invalidEmailResp, []⟩ : HandlerOut) = out := by simpa using h
            exact Or.inl (by rw [← he])
          · cases t
            · have he : (⟨503, notConfiguredResp, []⟩ : HandlerOut) = out := by simpa using h
              exact Or.inl (by rw [← he])
            · exact Or.inr ⟨hms, rfl, hpt, rfl, rfl, by simpa using h⟩
      · rw [if_neg hpt] at h
        have he : (⟨400, invalidPhoneResp, []⟩ : HandlerOut) = out := by simpa using h
        exact Or.inl (by rw [← he])
  · rw [if_neg hms] at h
    have he : (⟨400, missingResp (missingFields b), []⟩ : HandlerOut) = out := by simpa using h
    exact Or.inl (by rw [← he])

theorem missingFields_eq (b : ReqBody) :
    missingFields b =
      (if fieldMissing b.name = true then [("name".data)] else []) ++
      (if fieldMissing b.phone = true then [("phone".data)] else []) ++
      (if fieldMissing b.caseType = true then [("caseType".data)] else []) := by
  unfold missingFields requiredEntries
  by_cases h1 : fieldMissing b.name = true <;>
    by_cases h2 : fieldMissing b.phone = true <;>
    by_cases h3 : fieldMissing b.caseType = true <;>
    simp_all [List.filter]

theorem jsToString_short (v : JSVal) (h : jsTruthy v = false) :
    (jsToString v).length ≤ 9 := by
  cases v with
  | undefined => decide
  | null => decide
  | bool bb =>
    cases bb
    · decide
    · simp [jsTruthy] at h
  | num n =>
    have hz : n = 0 := by simpa [jsTruthy] using h
    subst hz
    decide
  | str s =>
    have hz : s = [] := by simpa [jsTruthy, List.isEmpty_iff] using h
    subst hz
    decide

theorem limits_ge_30 : ∀ fm ∈ limitsList, 30 ≤ fm.2 := by decide

theorem contact_bodyValid_run :
    contactHandler true envA true bodyValid = .ok outSmall := rfl

theorem mailSmall_mem : mailSmall ∈ outSmall.attempts :=
  List.mem_singleton.mpr rfl


set_option maxRecDepth 100000 in
theorem renderCanon_r1_he :
    renderedHasCanonical ("/practice/criminal-lawyer".data) Lang.he = true := by decide

set_option maxRecDepth 100000 in
theorem renderCanon_r1_en :
    renderedHasCanonical ("/practice/criminal-lawyer".data) Lang.en = true := by decide

set_option maxRecDepth 100000 in
theorem renderCanon_r2_he :
    renderedHasCanonical ("/practice/traffic-lawyer".data) Lang.he = true := by decide

set_option maxRecDepth 100000 in
theorem renderCanon_r2_en :
    renderedHasCanonical ("/practice/traffic-lawyer".data) Lang.en = true := by decide

set_option maxRecDepth 100000 in
theorem renderCanon_r3_he :
    renderedHasCanonical ("/practice/administrative-lawyer".data) Lang.he = true := by decide

set_option maxRecDepth 100000 in
theorem renderCanon_r3_en :
    renderedHasCanonical ("/practice/administrative-lawyer".data) Lang.en = true := by decide

set_option maxRecDepth 100000 in
theorem renderCanon_r4_he :
    renderedHasCanonical ("/practice/employment-lawyer".data) Lang.he = true := by decide

set_option maxRecDepth 100000 in
theorem renderCanon_r4_en :
    renderedHasCanonical ("/practice/employment-lawyer".data) Lang.en = true := by decide

set_option maxRecDepth 100000 in
theorem renderCanon_r5_he :
    renderedHasCanonical ("/practice/accessibility-lawyer".data) Lang.he = true := by decide

set_option maxRecDepth 100000 in
theorem renderCanon_r5_en :
    renderedHasCanonical ("/practice/accessibility-lawyer".data) Lang.en = true := by decide

set_option maxRecDepth 100000 in
theorem renderCanon_r6_he :
    renderedHasCanonical ("/privacy".data) Lang.he = true := by decide

set_option maxRecDepth 100000 in
theorem renderCanon_r6_en :
    renderedHasCanonical ("/privacy".data) Lang.en = true := by decide

set_option maxRecDepth 100000 in
theorem renderCanon_r7_he :
    renderedHasCanonical ("/terms".data) Lang.he = true := by decide

set_option maxRecDepth 100000 in
theorem renderCanon_r7_en :
    renderedHasCanonical ("/terms".data) Lang.en = true := by decide

set_option maxRecDepth 100000 in
theorem renderCanon_r8_he :
    renderedHasCanonical ("/cookies".data) Lang.he = true := by decide

set_option maxRecDepth 100000 in
theorem renderCanon_r8_en :
    renderedHasCanonical ("/cookies".data) Lang.en = true := by decide

set_option maxRecDepth 100000 in
theorem renderCanon_r9_he :
    renderedHasCanonical ("/disclaimer".data) Lang.he = true := by decide

set_option maxRecDepth 100000 in
theorem renderCanon_r9_en :
    renderedHasCanonical ("/disclaimer".data) Lang.en = true := by decide

set_option maxRecDepth 100000 in
theorem renderCanon_r10_he :
    renderedHasCanonical ("/accessibility-statement".data) Lang.he = true := by decide

set_option maxRecDepth 100000 in
theorem renderCanon_r10_en :
    renderedHasCanonical ("/accessibility-statement".data) Lang.en = true := by decide

theorem renderCanon_all : ∀ r ∈ expertiseRoutes,
    renderedHasCanonical r Lang.he = true ∧ renderedHasCanonical r Lang.en = true := by
  intro r hr
  simp only [expertiseRoutes, List.mem_cons, List.not_mem_nil, or_false] at hr
  rcases hr with rfl | rfl | rfl | rfl | rfl | rfl | rfl | rfl | rfl | rfl
  exacts [⟨renderCanon_r1_he, renderCanon_r1_en⟩, ⟨renderCanon_r2_he, renderCanon_r2_en⟩, ⟨renderCanon_r3_he, renderCanon_r3_en⟩, ⟨renderCanon_r4_he, renderCanon_r4_en⟩, ⟨renderCanon_r5_he, renderCanon_r5_en⟩, ⟨renderCanon_r6_he, renderCanon_r6_en⟩, ⟨renderCanon_r7_he, renderCanon_r7_en⟩, ⟨renderCanon_r8_he, renderCanon_r8_en⟩, ⟨renderCanon_r9_he, renderCanon_r9_en⟩, ⟨renderCanon_r10_he, renderCanon_r10_en⟩]

/-- C1: for every successfully validated submission the outbound email embeds
each user-supplied field HTML-escaped by `esc` (ampersand, `<`, `>`, `"`);
only the message field then has its newlines replaced by `<br>` after
escaping, so no `<` or `>` originating from a field value appears unescaped
in the email HTML (escaped fields contain no angle bracket at all, and the
transformed message is escaped text interleaved with literal `<br>` tags). -/
theorem contact_email_escaping :
    (∀ s : List Char, ('<' ∉ escL s) ∧ ('>' ∉ escL s)) ∧
    (∀ s : List Char, BrSafe (replaceCharL '\n' ("<br>".data) (escL s))) ∧
    (∀ t env sOk b out, contactHandler t env sOk b = .ok out →
      ∀ m ∈ out.attempts,
      ∃ n p c se mg, jsTrim b.name = .ok n ∧ jsTrim b.phone = .ok p ∧
        jsTrim b.caseType = .ok c ∧ safeEmailOf b.email = .ok se ∧
        jsTrim (nullishMsg b.message) = .ok mg ∧
        (se = [] ∨ ∃ e0, se = escL e0) ∧
        m = mkMail (smtpUserResolved env) (jsIsHe b.lang) n p c se mg ∧
        m.html = emailHtml (jsIsHe b.lang) (escL n) (escL p) (escL c) se
          (replaceCharL '\n' ("<br>".data) (escL mg))) := by
  refine ⟨escL_no_angle, ?_, ?_⟩
  · intro s
    refine brSafe_replaceNl _ (fun c hc => ⟨fun e => ?_, fun e => ?_⟩)
    · exact (escL_no_angle s).1 (e ▸ hc)
    · exact (escL_no_angle s).2 (e ▸ hc)
  · intro t env sOk b out h m hm
    rcases contactCore_ok_inv t (smtpUserResolved env) sOk b out h with hA | ⟨_, _, _, _, _, h6⟩
    · rw [hA] at hm; simp at hm
    · obtain ⟨n, p, c, se, mg, hn, hp, hc, hse, hmg, hout⟩ := dispatchMail_ok _ _ _ _ h6
      have hatt : out.attempts = [mkMail (smtpUserResolved env) (jsIsHe b.lang) n p c se mg] := by
        rw [hout]
      rw [hatt] at hm
      rcases List.mem_singleton.mp hm with rfl
      exact ⟨n, p, c, se, mg, hn, hp, hc, hse, hmg, safeEmailOf_shape _ _ hse, rfl, rfl⟩

theorem contact_email_escaping_witness :
    ('<' ∉ escL ("a<b&\"c>".data)) ∧
    (∃ n p c se mg, jsTrim bodyValid.name = .ok n ∧ jsTrim bodyValid.phone = .ok p ∧
      jsTrim bodyValid.caseType = .ok c ∧ safeEmailOf bodyValid.email = .ok se ∧
      jsTrim (nullishMsg bodyValid.message) = .ok mg ∧
      (se = [] ∨ ∃ e0, se = escL e0) ∧
      mailSmall = mkMail (smtpUserResolved envA) (jsIsHe bodyValid.lang) n p c se mg ∧
      mailSmall.html = emailHtml (jsIsHe bodyValid.lang) (escL n) (escL p) (escL c) se
        (replaceCharL '\n' ("<br>".data) (escL mg))) :=
  ⟨(contact_email_escaping.1 ("a<b&\"c>".data)).1,
   contact_email_escaping.2.2 true envA true bodyValid outSmall contact_bodyValid_run
     mailSmall mailSmall_mem⟩

/-- C2: the two language selectors are exact-match on inverse defaults: page
rendering selects the English metadata variant iff the query parameter is
exactly `"en"` (anything else, including absence, selects Hebrew), while the
email dispatcher selects the Hebrew variant iff `submission.lang` is exactly
the string `"he"` (anything else selects the non-Hebrew variant). -/
theorem language_selectors_exact :
    (∀ q : Option (List Char), pageLang q = Lang.en ↔ q = some ("en".data)) ∧
    (∀ q : Option (List Char), pageLang q = Lang.he ↔ q ≠ some ("en".data)) ∧
    (∀ v : JSVal, jsIsHe v = true ↔ v = .str ("he".data)) ∧
    (∀ v : JSVal, jsIsHe v = false ↔ v ≠ .str ("he".data)) := by
  refine ⟨fun q => ?_, fun q => ?_, fun v => ?_, fun v => ?_⟩
  · unfold pageLang; split <;> simp_all
  · unfold pageLang; split <;> simp_all
  · simp [jsIsHe]
  · simp [jsIsHe]

/-- C3: whenever any of `name`, `phone`, `caseType` is absent, null, or trims
to the empty string, the endpoint returns 400 `Missing required fields` with
a `fields` list containing exactly the missing field names (every one of
them, not only the first), no later validation stage produces the response,
and no mail is sent. -/
theorem contact_missing_fields (t : Bool) (env : Env) (sOk : Bool) (b : ReqBody)
    (h : fieldMissing b.name = true ∨ fieldMissing b.phone = true ∨
         fieldMissing b.caseType = true) :
    contactHandler t env sOk b = .ok ⟨400, missingResp (missingFields b), []⟩ ∧
    (("name".data) ∈ missingFields b ↔ fieldMissing b.name = true) ∧
    (("phone".data) ∈ missingFields b ↔ fieldMissing b.phone = true) ∧
    (("caseType".data) ∈ missingFields b ↔ fieldMissing b.caseType = true) := by
  have hne : missingFields b ≠ [] := by
    rw [missingFields_eq]
    rcases h with h | h | h <;> simp [h]
  refine ⟨?_, ?_, ?_, ?_⟩
  · unfold contactHandler contactCore
    cases hml : missingFields b with
    | nil => exact absurd hml hne
    | cons a l => rfl
  all_goals (
    rw [missingFields_eq]
    by_cases h1 : fieldMissing b.name = true <;>
      by_cases h2 : fieldMissing b.phone = true <;>
      by_cases h3 : fieldMissing b.caseType = true <;>
      simp_all)

theorem contact_missing_fields_witness :
    contactHandler true envA true bodyEmptyName =
      .ok ⟨400, missingResp (missingFields bodyEmptyName), []⟩ ∧
    (("name".data) ∈ missingFields bodyEmptyName ↔ fieldMissing bodyEmptyName.name = true) ∧
    (("phone".data) ∈ missingFields bodyEmptyName ↔ fieldMissing bodyEmptyName.phone = true) ∧
    (("caseType".data) ∈ missingFields bodyEmptyName ↔ fieldMissing bodyEmptyName.caseType = true) :=
  contact_missing_fields true envA true bodyEmptyName (Or.inl (by decide))

/-- C4 (the claim is refuted by the code): a JSON body whose `email` field is
the number `123` passes the required and length stages, and the email-format
stage then calls `.trim()` on the number (server.js line 125), throwing a
`TypeError` that escapes the handler instead of producing a structured
response. -/
theorem contact_crash_numeric_email :
    contactHandler true envA true bodyNumericEmail = .error .typeError := by
  rfl

/-- C5: for every registered route the metadata used to render is the entry
for the selected language with fallback to the route's Hebrew entry when the
selected language has no entry; the canonical link is the bare route path for
Hebrew and `route + "?lang=en"` for English, and the rendered document (from
the spec-modelled template) contains exactly that canonical link tag. -/
theorem render_meta_fallback_canonical :
    (∀ tbl r l e, tbl r = some e →
      resolveMetaT tbl r l =
        (match langGet e l with | some m => some m | none => e.he)) ∧
    (∀ r, canonicalOf r Lang.he = r ∧ canonicalOf r Lang.en = r ++ ("?lang=en".data)) ∧
    (∀ r ∈ expertiseRoutes, ∀ q : Option (List Char),
      renderedHasCanonical r (pageLang q) = true) := by
  refine ⟨?_, fun r => ⟨rfl, rfl⟩, ?_⟩
  · intro tbl r l e he
    unfold resolveMetaT
    rw [he]
    cases hl : langGet e l <;> simp [hl]
  · intro r hr q
    have h := renderCanon_all r hr
    cases hpl : pageLang q
    · exact h.1
    · exact h.2

theorem render_meta_fallback_canonical_witness :
    resolveMetaT routeMeta ("/privacy".data) Lang.en =
      (match langGet privacyEntry Lang.en with | some m => some m | none => privacyEntry.he) ∧
    renderedHasCanonical ("/privacy".data) (pageLang (some ("en".data))) = true :=
  ⟨render_meta_fallback_canonical.1 routeMeta ("/privacy".data) Lang.en privacyEntry rfl,
   render_meta_fallback_canonical.2.2 ("/privacy".data) (by decide) (some ("en".data))⟩

/-- C6: with no mail-relay credential configured, every request passing all
four validation stages returns 503 `{ok:false, error:"Email not configured"}`
and attempts zero sends; and the handler's behavior depends on the
environment only through `SMTP_USER` — the configured/not-configured decision
comes from the transporter created once at startup (server.js line 80), not
from a per-request read of the credential. -/
theorem contact_not_configured :
    (∀ env sOk b, missingFields b = [] → firstTooLong b = none →
      phoneTest (jsToString b.phone) = true → emailStage b.email = .ok true →
      contactHandler false env sOk b = .ok ⟨503, notConfiguredResp, []⟩) ∧
    (∀ t e1 e2 sOk b, e1.smtpUser = e2.smtpUser →
      contactHandler t e1 sOk b = contactHandler t e2 sOk b) := by
  constructor
  · intro env sOk b h1 h2 h3 h4
    simp [contactHandler, contactCore, h1, h2, h3, h4]
  · intro t e1 e2 sOk b h
    unfold contactHandler smtpUserResolved
    rw [h]

theorem contact_not_configured_witness :
    contactHandler false envA true bodyValid = .ok ⟨503, notConfiguredResp, []⟩ ∧
    contactHandler true envA true bodyValid = contactHandler true ⟨none, none⟩ true bodyValid :=
  ⟨contact_not_configured.1 envA true bodyValid rfl rfl rfl rfl,
   contact_not_configured.2 true envA ⟨none, none⟩ true bodyValid rfl⟩

/-- C7: on every request the mail send is attempted at most once, the attempt
happens only after all four validation stages passed (and with a configured
transporter), any validation-stage failure yields zero attempts, and a failed
send is not retried (the attempt list still has at most one element). -/
theorem contact_single_send (t : Bool) (env : Env) (sOk : Bool) (b : ReqBody)
    (out : HandlerOut) (h : contactHandler t env sOk b = .ok out) :
    out.attempts.length ≤ 1 ∧
    (out.attempts ≠ [] →
      missingFields b = [] ∧ firstTooLong b = none ∧
      phoneTest (jsToString b.phone) = true ∧ emailStage b.email = .ok true ∧ t = true) ∧
    ((missingFields b ≠ [] ∨ firstTooLong b ≠ none ∨
      phoneTest (jsToString b.phone) = false ∨ emailStage b.email = .ok false) →
      out.attempts = []) := by
  rcases contactCore_ok_inv t (smtpUserResolved env) sOk b out h with hA | ⟨h1, h2, h3, h4, h5, h6⟩
  · exact ⟨by simp [hA], fun hne => absurd hA hne, fun _ => hA⟩
  · obtain ⟨n, p, c, se, mg, _, _, _, _, _, hout⟩ := dispatchMail_ok _ _ _ _ h6
    have hatt : out.attempts = [mkMail (smtpUserResolved env) (jsIsHe b.lang) n p c se mg] := by
      rw [hout]
    have hml : missingFields b = [] := List.isEmpty_iff.mp h1
    refine ⟨by simp [hatt], fun _ => ⟨hml, h2, h3, h4, h5⟩, fun hbad => ?_⟩
    rcases hbad with hb | hb | hb | hb
    · exact absurd hml hb
    · exact absurd h2 hb
    · rw [h3] at hb; exact absurd hb (by simp)
    · rw [h4] at hb; simp at hb

theorem contact_single_send_witness :
    outSmall.attempts.length ≤ 1 ∧
    (outSmall.attempts ≠ [] →
      missingFields bodyValid = [] ∧ firstTooLong bodyValid = none ∧
      phoneTest (jsToString bodyValid.phone) = true ∧
      emailStage bodyValid.email = .ok true ∧ true = true) ∧
    ((missingFields bodyValid ≠ [] ∨ firstTooLong bodyValid ≠ none ∨
      phoneTest (jsToString bodyValid.phone) = false ∨
      emailStage bodyValid.email = .ok false) →
      outSmall.attempts = []) :=
  contact_single_send true envA true bodyValid outSmall contact_bodyValid_run

/-- C8: page rendering is a pure function of the cached template, the route
and the language: a render leaves the server state (the cached template)
unchanged, re-rendering the same route and query twice gives byte-identical
output with no accumulation of injected content, and the output depends on
the query only through the selected language. -/
theorem render_idempotent :
    (∀ st r q, (serveExpertise st r q).2 = st) ∧
    (∀ st r q, (serveExpertise st r q).1 =
      (serveExpertise ((serveExpertise st r q).2) r q).1) ∧
    (∀ st r q q', pageLang q = pageLang q' →
      (serveExpertise st r q).1 = (serveExpertise st r q').1) := by
  refine ⟨fun st r q => rfl, fun st r q => rfl, fun st r q q' h => ?_⟩
  simp only [serveExpertise, renderExpertise, h]

theorem render_idempotent_witness :
    (serveExpertise stA ("/privacy".data) none).1 =
      (serveExpertise stA ("/privacy".data) (some ("he".data))).1 :=
  render_idempotent.2.2 stA ("/privacy".data) none (some ("he".data)) (by decide)

/-- C9: for every body passing the required-field stage in which some field
exceeds its maximum length (name 200, phone 30, caseType 100, email 254,
message 5000), the endpoint returns 400 with the error naming the offending
field and its limit (the pair is an entry of the limits table), before any
format-stage check runs and with zero mail attempts. -/
theorem contact_field_too_long (t : Bool) (env : Env) (sOk : Bool) (b : ReqBody)
    (hreq : missingFields b = [])
    (hlong : ∃ fm ∈ limitsList, (jsToString (getField b fm.1)).length > fm.2) :
    ∃ f m, (f, m) ∈ limitsList ∧ (jsToString (getField b f)).length > m ∧
      contactHandler t env sOk b = .ok ⟨400, tooLongResp f m, []⟩ := by
  have htr : ∀ fm ∈ limitsList, (jsToString (getField b fm.1)).length > fm.2 →
      (jsTruthy (getField b fm.1) &&
        decide ((jsToString (getField b fm.1)).length > fm.2)) = true := by
    intro fm hm hlen
    rw [Bool.and_eq_true, decide_eq_true_eq]
    refine ⟨?_, hlen⟩
    by_contra hfalse
    rw [Bool.not_eq_true] at hfalse
    have hsmall := jsToString_short _ hfalse
    have h30 := limits_ge_30 fm hm
    omega
  obtain ⟨fm0, hm0, hlen0⟩ := hlong
  have hsome : (firstTooLong b).isSome = true := by
    unfold firstTooLong
    rw [List.find?_isSome]
    exact ⟨fm0, hm0, htr fm0 hm0 hlen0⟩
  obtain ⟨a, ha⟩ := Option.isSome_iff_exists.mp hsome
  have hpa := List.find?_some ha
  have hmema := List.mem_of_find?_eq_some ha
  rw [Bool.and_eq_true, decide_eq_true_eq] at hpa
  refine ⟨a.1, a.2, hmema, hpa.2, ?_⟩
  simp [contactHandler, contactCore, hreq, ha]

set_option maxRecDepth 4000 in
theorem contact_field_too_long_witness :
    ∃ f m, (f, m) ∈ limitsList ∧
      (jsToString (getField bodyLongName f)).length > m ∧
      contactHandler true envA true bodyLongName = .ok ⟨400, tooLongResp f m, []⟩ :=
  contact_field_too_long true envA true bodyLongName rfl
    ⟨("name".data, 200), by decide, by decide⟩

/-- C10: the statically registered route set is exactly the ten listed paths
(the five practice pages plus privacy, terms, cookies, disclaimer and
accessibility-statement — `/disclaimer` is served although the spec's HTTP
surface omits it), every registered route has both an `he` and an `en` entry
in the metadata table, and therefore the Hebrew-fallback branch of the
metadata resolution is never exercised for registered routes. -/
theorem routes_metadata_complete :
    expertiseRoutes =
      ["/practice/criminal-lawyer".data,
       "/practice/traffic-lawyer".data,
       "/practice/administrative-lawyer".data,
       "/practice/employment-lawyer".data,
       "/practice/accessibility-lawyer".data,
       "/privacy".data,
       "/terms".data,
       "/cookies".data,
       "/disclaimer".data,
       "/accessibility-statement".data] ∧
    expertiseRoutes.length = 10 ∧
    ("/disclaimer".data) ∈ expertiseRoutes ∧
    (∀ r ∈ expertiseRoutes,
      ((routeMeta r).bind (fun e => e.he)).isSome = true ∧
      ((routeMeta r).bind (fun e => e.en)).isSome = true) ∧
    (∀ r ∈ expertiseRoutes,
      resolveMeta r Lang.he = (routeMeta r).bind (fun e => langGet e Lang.he) ∧
      resolveMeta r Lang.en = (routeMeta r).bind (fun e => langGet e Lang.en)) := by
  refine ⟨rfl, rfl, by decide, by decide, by decide⟩

end AlonPardo
